import Mathlib

/-! BCDx36HP: derivation cache and RIFF INFO extraction.

A shallow embedding of `server.go`: the cache-key derivation `Handler.gi`, the
cache probe `Handler.ServeCached`, the handlers `sendPNG` and `sendJSON`, and
the metadata extractor `getUnidenRiffInfo`.

Go strings and byte slices are lists of bytes.  The file system, the HTTP
response and the process are explicit state.  Logging calls that only log are
left out; `log.Fatal`, which ends the process, is kept.
-/

set_option autoImplicit false

namespace BCDx36HP

/-! ## Bytes and strings -/

/-- One byte. -/
abbrev Byte := Fin 256

/-- A Go `string` or `[]byte`: a sequence of bytes. -/
abbrev GoString := List Byte

/-- The bytes of an ASCII literal of the source. -/
def ascii (s : String) : GoString :=
  s.toList.map (fun c => Fin.ofNat c.toNat)

/-- The separator byte `-` that `gi` puts between path and query. -/
def dash : Byte := 45

/-- The lowercase hexadecimal digit of a value below 16, as `%x` prints it. -/
def hexDigit (n : Nat) : Byte :=
  if n < 10 then Fin.ofNat (48 + n) else Fin.ofNat (87 + n)

/-- The verb `%x` on a byte array: two lowercase hexadecimal digits per byte,
high nibble first. -/
def hexEncode : List Byte → GoString
  | [] => []
  | b :: bs => hexDigit (b.val / 16) :: hexDigit (b.val % 16) :: hexEncode bs

/-- The value of a lowercase hexadecimal digit, if it is one. -/
def hexValue (c : Byte) : Option Nat :=
  if 48 ≤ c.val ∧ c.val ≤ 57 then some (c.val - 48)
  else if 97 ≤ c.val ∧ c.val ≤ 102 then some (c.val - 87)
  else none

/-- Reads a string of lowercase hexadecimal digit pairs back into bytes. -/
def hexDecode : GoString → Option (List Byte)
  | [] => some []
  | [_] => none
  | hi :: lo :: rest =>
    match hexValue hi, hexValue lo, hexDecode rest with
    | some h, some l, some bs => some (Fin.ofNat (h * 16 + l) :: bs)
    | _, _, _ => none

/-- Whether a byte is one of `0`..`9`, `a`..`f`. -/
def isLowerHex (c : Byte) : Bool :=
  (48 ≤ c.val && c.val ≤ 57) || (97 ≤ c.val && c.val ≤ 102)

/-! ## Key derivation -/

/-- The value of `sha1.Sum`: an array of `sha1.Size = 20` bytes. -/
structure Digest where
  bytes : List Byte
  size : bytes.length = 20

/-- The receiver of the handlers. -/
structure Handler where
  Base : GoString
  Cache : GoString

/-- What the handlers read of a request: the route variable `path` and
`r.URL.RawQuery`. -/
structure Request where
  path : GoString
  rawQuery : GoString

/-- The string `cacheStr` of `gi`, the input of the digest:
`fmt.Sprintf("%s-%s", params["path"], r.URL.RawQuery)`. -/
def cacheStr (path query : GoString) : GoString :=
  path ++ ascii "-" ++ query

/-- `Handler.gi`: the source file and the cache file of a request, for the kind
extension `t`.  The digest function `sha1.Sum` is a parameter. -/
def Handler.gi (sum : GoString → Digest) (f : Handler) (r : Request) (t : GoString) :
    GoString × GoString :=
  let wFile := f.Base ++ ascii "/" ++ r.path ++ ascii ".wav"
  let cacheStr := cacheStr r.path r.rawQuery
  let cFile := f.Cache ++ ascii "/" ++ hexEncode (sum cacheStr).bytes ++ ascii "." ++ t
  (wFile, cFile)

/-! ## Errors -/

/-- The Go `error` values that occur. -/
inductive GoError where
  /-- The error of `os.Open` for a file that does not exist; `os.IsNotExist`
  holds for it and for no other error here. -/
  | notExist (path : GoString)
  /-- Any other error of package `os` or `os/exec`, with its text. -/
  | sys (msg : GoString)
  /-- The value `io.EOF`. -/
  | eof
  /-- The value `io.ErrUnexpectedEOF`. -/
  | unexpectedEOF
  | errMissingPaddingByte
  | errMissingRIFFChunkHeader
  | errListSubchunkTooLong
  | errShortChunkData
  | errShortChunkHeader
  | errStaleReader
  /-- A value made by `errors.New`. -/
  | new (msg : GoString)
  deriving DecidableEq

/-- The method `Error()`: the text of an error. -/
def GoError.Error : GoError → GoString
  | .notExist path => ascii "open " ++ path ++ ascii ": no such file or directory"
  | .sys msg => msg
  | .eof => ascii "EOF"
  | .unexpectedEOF => ascii "unexpected EOF"
  | .errMissingPaddingByte => ascii "riff: missing padding byte"
  | .errMissingRIFFChunkHeader => ascii "riff: missing RIFF chunk header"
  | .errListSubchunkTooLong => ascii "riff: list subchunk too long"
  | .errShortChunkData => ascii "riff: short chunk data"
  | .errShortChunkHeader => ascii "riff: short chunk header"
  | .errStaleReader => ascii "riff: stale reader"
  | .new msg => msg

/-- The test `os.IsNotExist(err)`; `err` may be nil. -/
def IsNotExist : Option GoError → Bool
  | some (.notExist _) => true
  | _ => false

/-! ## File system and HTTP response -/

/-- What a path names. -/
inductive Node where
  /-- Nothing: `os.Open` fails with a not-exist error. -/
  | absent
  /-- A readable file with these bytes. -/
  | file (data : GoString)
  /-- Something that cannot be opened for reading (permission denied, ...);
  `os.Open` fails with this other error. -/
  | unreadable (err : GoString)
  deriving DecidableEq

/-- How writing a file fails: the error, and how far the write got.  With
`written = none` the file could not be created or opened for writing (missing
or read-only directory, ...) and nothing changes; with `written = some k` the
file was created or truncated and the write failed after `k` bytes (disk full,
...). -/
structure WriteFault where
  err : GoError
  written : Option Nat
  deriving DecidableEq

/-- The file system: what each path names, and for each path the fault, if any,
with which writing a file there fails. -/
structure FS where
  node : GoString → Node
  writeErr : GoString → Option WriteFault

/-- `os.Open`: the opened file (its bytes), nil on failure, and the error. -/
def osOpen (fs : FS) (name : GoString) : Option GoString × Option GoError :=
  match fs.node name with
  | .absent => (none, some (.notExist name))
  | .file data => (some data, none)
  | .unreadable err => (none, some (.sys err))

/-- `ioutil.WriteFile`: creates or truncates the file, writes `data` and
closes the file.  On success the path names a file with exactly `data`.  When
the file cannot be created or opened nothing changes; when the write fails
after the file was created or truncated, the path names a file with the bytes
written so far. -/
def WriteFile (fs : FS) (name : GoString) (data : GoString) : FS × Option GoError :=
  match fs.writeErr name with
  | some ⟨err, none⟩ => (fs, some err)
  | some ⟨err, some k⟩ =>
    ({ fs with node := fun p => if p = name then .file (data.take k) else fs.node p }, some err)
  | none => ({ fs with node := fun p => if p = name then .file data else fs.node p }, none)

/-- The `http.ResponseWriter` of a request: the status code once the header is
written, and the body written so far.  A response whose header was never
written goes out with status 200. -/
structure ResponseWriter where
  status : Option Nat
  body : GoString
  deriving DecidableEq

/-- The status code the client receives. -/
def ResponseWriter.code (rw : ResponseWriter) : Nat :=
  rw.status.getD 200

/-- `rw.WriteHeader(code)`: only the first call counts. -/
def ResponseWriter.WriteHeader (rw : ResponseWriter) (code : Nat) : ResponseWriter :=
  match rw.status with
  | some _ => rw
  | none => { rw with status := some code }

/-- `rw.Write(data)`: writes the header with 200 if it is not written yet. -/
def ResponseWriter.Write (rw : ResponseWriter) (data : GoString) : ResponseWriter :=
  let rw := rw.WriteHeader 200
  { rw with body := rw.body ++ data }

/-- `http.Error(rw, msg, code)`: the header with `code`, then `msg` and a
newline as body. -/
def httpError (rw : ResponseWriter) (msg : GoString) (code : Nat) : ResponseWriter :=
  (rw.WriteHeader code).Write (msg ++ ascii "\n")

/-- `io.Copy(rw, fh)`: every byte of the opened file goes to the response.  A
nil `fh` (a failed `os.Open`) delivers no byte: its `Read` fails at once, and
the error is dropped by the caller. -/
def ioCopy (rw : ResponseWriter) (fh : Option GoString) : ResponseWriter :=
  match fh with
  | none => rw
  | some [] => rw
  | some data => rw.Write data

/-- The state a handler works on.  The fields `parses` and `soxStarts` are
counters of the model: the calls of `getUnidenRiffInfo` and of `socks.Start`
made so far. -/
structure State where
  fs : FS
  rw : ResponseWriter
  parses : Nat
  soxStarts : Nat

/-- `Handler.ServeError`: answers with the text of `err` and status 504. -/
def ServeError (err : GoError) (s : State) : State :=
  { s with rw := httpError s.rw err.Error 504 }

/-- `Handler.ServeCached`: copies the file to the response and reports true,
unless opening it fails with a not-exist error. -/
def ServeCached (filename : GoString) (s : State) : Bool × State :=
  let (fh, err) := osOpen s.fs filename
  if IsNotExist err then
    (false, s)
  else
    (true, { s with rw := ioCopy s.rw fh })

/-! ## The RIFF reader -/

/-- A four character code, `riff.FourCC`. -/
structure FourCC where
  b0 : Byte
  b1 : Byte
  b2 : Byte
  b3 : Byte
  deriving DecidableEq

/-- The four bytes of a code; `fmt.Sprintf("%s", chunkID)` gives them as a
string. -/
def FourCC.bytes (c : FourCC) : GoString :=
  [c.b0, c.b1, c.b2, c.b3]

/-- The code held by the first four bytes of a buffer. -/
def FourCC.ofBuf : List Byte → FourCC
  | b0 :: b1 :: b2 :: b3 :: _ => ⟨b0, b1, b2, b3⟩
  | _ => ⟨0, 0, 0, 0⟩

/-- The code `riff.LIST`. -/
def LIST : FourCC := ⟨76, 73, 83, 84⟩

/-- The function `u32` of package riff: the first four bytes as a little-endian
integer. -/
def u32 : List Byte → Nat
  | b0 :: b1 :: b2 :: b3 :: _ => b0.val + b1.val * 256 + b2.val * 65536 + b3.val * 16777216
  | _ => 0

/-- `io.ReadFull` on a stream that still delivers the bytes `r` and then
`io.EOF`: the `n` bytes read and the rest of the stream, or `io.EOF` when no
byte was there, `io.ErrUnexpectedEOF` when too few were. -/
def readFull (r : List Byte) (n : Nat) : Except GoError (List Byte × List Byte) :=
  if n ≤ r.length then .ok (r.take n, r.drop n)
  else if r = [] then .error .eof
  else .error .unexpectedEOF

/-- Modelled from the spec: the chunk reader `riff.Reader` of the package
golang.org/x/image/riff, which is not part of the repository (standard RIFF
chunk framing: 4-byte tag, 4-byte little-endian length, payload, even-padding).
The field `r` holds the bytes the underlying `io.Reader` still delivers before
`io.EOF`; `err` is the sticky error; `totalLen` and `chunkLen` are the `uint32`
counts of bytes left in the list and in the current chunk.  A reader keeps
`chunkLen ≤ totalLen`, and every subtraction below is guarded by a comparison,
so no count wraps around. -/
structure Reader where
  r : List Byte
  err : Option GoError
  totalLen : Nat
  chunkLen : Nat
  padded : Bool
  deriving DecidableEq

/-- Modelled from the spec: `riff.NewListReader` of golang.org/x/image/riff:
reads the four bytes of the list type and returns a reader of the remaining
`chunkLen - 4` bytes. -/
def NewListReader (chunkLen : Nat) (chunkData : List Byte) : Except GoError (FourCC × Reader) :=
  if chunkLen < 4 then .error .errShortChunkData
  else
    match readFull chunkData 4 with
    | .error err =>
      .error (if err = .eof ∨ err = .unexpectedEOF then .errShortChunkData else err)
    | .ok (buf, r) =>
      .ok (FourCC.ofBuf buf,
        { r := r, err := none, totalLen := chunkLen - 4, chunkLen := 0, padded := false })

/-- Modelled from the spec: `riff.NewReader` of golang.org/x/image/riff: checks
the `RIFF` signature of the 8-byte header and opens the form as a list. -/
def NewReader (r : List Byte) : Except GoError (FourCC × Reader) :=
  match readFull r 8 with
  | .error err =>
    .error (if err = .eof ∨ err = .unexpectedEOF then .errMissingRIFFChunkHeader else err)
  | .ok (buf, r) =>
    if FourCC.ofBuf buf ≠ ⟨82, 73, 70, 70⟩ then .error .errMissingRIFFChunkHeader
    else NewListReader (u32 (buf.drop 4)) r

/-- The reader with its sticky error set, and that error as result. -/
def Reader.fail (z : Reader) (err : GoError) : Except GoError (FourCC × Nat) × Reader :=
  (.error err, { z with err := some err })

/-- Modelled from the spec: the last part of `Reader.Next` of
golang.org/x/image/riff: reports `io.EOF` when the list has no more data, and
otherwise reads the next chunk header. -/
def Reader.nextHeader (z : Reader) : Except GoError (FourCC × Nat) × Reader :=
  -- We are done if we have no more data.
  if z.totalLen = 0 then z.fail .eof
  -- Read the next chunk header.
  else if z.totalLen < 8 then z.fail .errShortChunkHeader
  else
    let z : Reader := { z with totalLen := z.totalLen - 8 }
    match readFull z.r 8 with
    | .error err =>
      z.fail (if err = .eof ∨ err = .unexpectedEOF then .errShortChunkHeader else err)
    | .ok (buf, r) =>
      let z : Reader := { z with r := r, chunkLen := u32 (buf.drop 4) }
      if z.chunkLen > z.totalLen then z.fail .errListSubchunkTooLong
      else
        let z : Reader := { z with padded := z.chunkLen % 2 = 1 }
        (.ok (FourCC.ofBuf buf, z.chunkLen), z)

/-- Modelled from the spec: the middle part of `Reader.Next` of
golang.org/x/image/riff: skips the padding byte that follows a chunk of odd
length, then goes on to the next header. -/
def Reader.skipPadding (z : Reader) : Except GoError (FourCC × Nat) × Reader :=
  if z.padded then
    if z.totalLen = 0 then z.fail .errListSubchunkTooLong
    else
      let z : Reader := { z with totalLen := z.totalLen - 1 }
      match readFull z.r 1 with
      | .error err => z.fail (if err = .eof then .errMissingPaddingByte else err)
      | .ok (_, r) => Reader.nextHeader { z with r := r }
  else
    Reader.nextHeader z

/-- Modelled from the spec: `Reader.Next` of golang.org/x/image/riff: drains
what is left of the previous chunk, skips its padding byte, and reads the next
chunk header.  The result is the chunk's tag and length; the chunk's data is
read from the returned reader with `chunkData` or `ReadAll`. -/
def Reader.Next (z : Reader) : Except GoError (FourCC × Nat) × Reader :=
  match z.err with
  | some err => (.error err, z)
  | none =>
    -- Drain the rest of the previous chunk.
    if z.chunkLen ≠ 0 then
      let want := z.chunkLen
      let got := min z.chunkLen z.r.length
      let z : Reader :=
        { z with r := z.r.drop got, totalLen := z.totalLen - got, chunkLen := z.chunkLen - got }
      if got ≠ want then z.fail .errShortChunkData
      else Reader.skipPadding z
    else
      Reader.skipPadding z

/-- Modelled from the spec: the `chunkData` reader that `Reader.Next` of
golang.org/x/image/riff returns, as a stream: it delivers the bytes of the
current chunk, as far as the underlying stream has them, and then `io.EOF`. -/
def Reader.chunkData (z : Reader) : List Byte :=
  z.r.take z.chunkLen

/-- Modelled from the spec: `ioutil.ReadAll(chunkData)` on the `chunkData` of
this reader (golang.org/x/image/riff): the bytes of the current chunk as far as
the underlying stream has them; the reader's counts go down by the bytes read.
The end of the data, `io.EOF`, is no error for `ReadAll`. -/
def Reader.ReadAll (z : Reader) : (List Byte × Option GoError) × Reader :=
  match z.err with
  | some err => (([], some (if err = .eof then .errStaleReader else err)), z)
  | none =>
    let n := min z.chunkLen z.r.length
    ((z.r.take n, none),
      { z with r := z.r.drop n, totalLen := z.totalLen - n, chunkLen := z.chunkLen - n })

/-! ## Metadata extraction -/

/-- A Go `map[string]string`, as a list of entries with distinct keys. -/
abbrev InfoMap := List (GoString × GoString)

/-- The assignment `m[k] = v`. -/
def InfoMap.set : InfoMap → GoString → GoString → InfoMap
  | [], k, v => [(k, v)]
  | (k', v') :: m, k, v => if k' = k then (k, v) :: m else (k', v') :: InfoMap.set m k v

/-- The lookup `m[k]`, none when the key is not in the map. -/
def InfoMap.get : InfoMap → GoString → Option GoString
  | [], _ => none
  | (k', v') :: m, k => if k' = k then some v' else InfoMap.get m k

/-- `strings.TrimRight(s, "\x00")` for a one-byte cutset: `s` without its
trailing bytes `c`. -/
def trimRight : GoString → Byte → GoString
  | [], _ => []
  | b :: s, c =>
    match trimRight s c with
    | [] => if b = c then [] else [b]
    | t => b :: t

/-- How a call ends: it returns, or the process exits (`log.Fatal`), or the
model's loop budget ran out before the call ended. -/
inductive Outcome (α : Type) where
  | returned (a : α)
  | exited (code : Nat)
  | unfinished
  deriving DecidableEq

/-- The `for` loop of `getUnidenRiffInfo` over the members of the list, with a
budget of iterations. -/
def infoLoop : Nat → Reader → InfoMap → Outcome (InfoMap × Option GoError)
  | 0, _, _ => .unfinished
  | fuel + 1, list, infoList =>
    match list.Next with
    | (.error err, _) =>
      if err = .eof then .returned (infoList, none)
      else .returned ([], some err)
    | (.ok (chunkID, _), list) =>
      match list.ReadAll with
      | ((_, some err), _) => .returned ([], some err)
      | ((b, none), list) =>
        let v := trimRight b 0
        infoLoop fuel list (infoList.set chunkID.bytes v)

/-- `getUnidenRiffInfo`: the INFO entries of the RIFF file `file`.  On a failed
`os.Open` and on a failed `riff.NewReader` the code calls `log.Fatal`, which
ends the process with status 1.  (`os.Open` gives no nil file without an error;
`riff.NewReader` on one would fail and end the process likewise.)  Each
iteration of the member loop takes at least a chunk header from the stream, so
the length of the stream plus one is budget enough. -/
def getUnidenRiffInfo (fs : FS) (file : GoString) : Outcome (InfoMap × Option GoError) :=
  match osOpen fs file with
  | (_, some _) => .exited 1
  | (none, none) => .exited 1
  | (some fh, none) =>
    match NewReader fh with
    | .error _ => .exited 1
    | .ok (_, r) =>
      match r.Next with
      | (.error err, _) => .returned ([], some err)
      | (.ok (chunkID, chunkLen), r) =>
        if chunkID = LIST then
          match NewListReader chunkLen r.chunkData with
          | .error err => .returned ([], some err)
          | .ok (_, list) => infoLoop (list.r.length + 1) list []
        else
          .returned ([], some (.new (ascii "chunk is not riff.LIST")))

/-! ## Handlers -/

/-- What the handlers use from outside the repository: the digest `sha1.Sum`,
`json.Marshal` on a string map, and the `sox` process (`socks.Start()` and
`socks.Wait()` for the given source and destination file: the error of the
launch, and the file system the process leaves with its exit error). -/
structure Externals where
  sum : GoString → Digest
  Marshal : InfoMap → Except GoError GoString
  soxStart : FS → GoString → GoString → Option GoError
  soxWait : FS → GoString → GoString → FS × Option GoError

/-- `Handler.sendPNG`. -/
def Handler.sendPNG (x : Externals) (f : Handler) (s : State) (r : Request) : State :=
  let (wFile, cFile) := f.gi x.sum r (ascii "png")
  match ServeCached cFile s with
  | (true, s) => s
  | (false, s) =>
    let s := { s with soxStarts := s.soxStarts + 1 }
    match x.soxStart s.fs wFile cFile with
    | some err => ServeError err s
    | none =>
      match x.soxWait s.fs wFile cFile with
      | (fs, some err) => ServeError err { s with fs := fs }
      | (fs, none) => (ServeCached cFile { s with fs := fs }).2

/-- `Handler.sendJSON`. -/
def Handler.sendJSON (x : Externals) (f : Handler) (s : State) (r : Request) : Outcome State :=
  let (wFile, cFile) := f.gi x.sum r (ascii "json")
  match ServeCached cFile s with
  | (true, s) => .returned s
  | (false, s) =>
    let s := { s with parses := s.parses + 1 }
    match getUnidenRiffInfo s.fs wFile with
    | .exited code => .exited code
    | .unfinished => .unfinished
    | .returned (_, some err) => .returned (ServeError err s)
    | .returned (info, none) =>
      match x.Marshal info with
      | .error err => .returned (ServeError err s)
      | .ok jsonData =>
        match WriteFile s.fs cFile jsonData with
        | (fs, some err) => .returned (ServeError err { s with fs := fs })
        | (fs, none) => .returned (ServeCached cFile { s with fs := fs }).2

/-! ## Well-formed containers -/

/-- The four bytes of a `uint32` length, little-endian. -/
def le32 (n : Nat) : List Byte :=
  [Fin.ofNat (n % 256), Fin.ofNat (n / 256 % 256), Fin.ofNat (n / 65536 % 256),
    Fin.ofNat (n / 16777216 % 256)]

/-- A member sub-chunk of a list: its tag and its payload. -/
structure Member where
  tag : FourCC
  payload : List Byte

/-- The bytes of a chunk in RIFF framing: tag, length, payload, and a padding
byte after a payload of odd length. -/
def chunkBytes (tag : FourCC) (payload : List Byte) : List Byte :=
  tag.bytes ++ le32 payload.length ++ payload ++ (if payload.length % 2 = 1 then [0] else [])

/-- The bytes of a sequence of member sub-chunks. -/
def membersBytes : List Member → List Byte
  | [] => []
  | m :: ms => chunkBytes m.tag m.payload ++ membersBytes ms

/-- The payload of a `LIST` chunk: the list type and the members. -/
def listPayload (listType : FourCC) (ms : List Member) : List Byte :=
  listType.bytes ++ membersBytes ms

/-- A RIFF file whose first top-level chunk is a `LIST` chunk with the members
`ms`: the header with the declared length `riffLen`, the form type, the `LIST`
chunk, and whatever follows it. -/
def riffFile (riffLen : Nat) (formType listType : FourCC) (ms : List Member)
    (rest : List Byte) : List Byte :=
  ascii "RIFF" ++ le32 riffLen ++ formType.bytes ++
    chunkBytes LIST (listPayload listType ms) ++ rest

/-- The map the member loop builds from an initial map: one assignment per
member, in order. -/
def collect (acc : InfoMap) (ms : List Member) : InfoMap :=
  ms.foldl (fun a m => a.set m.tag.bytes (trimRight m.payload 0)) acc

/-- The payload stored for a tag by the last member that carries it. -/
def lastPayload (ms : List Member) (tag : GoString) : Option (List Byte) :=
  (ms.reverse.find? (fun m => m.tag.bytes = tag)).map (fun m => m.payload)

/-- The file system that holds exactly the listed nodes and on which every
write succeeds. -/
def FS.ofList (files : List (GoString × Node)) : FS where
  node := fun p =>
    match files.find? (fun e => e.1 = p) with
    | some e => e.2
    | none => .absent
  writeErr := fun _ => none

/-- The code whose bytes are the four characters of `s`. -/
def fourCC (s : String) : FourCC :=
  FourCC.ofBuf (ascii s)

/-- The example of two INFO entries: artist and title, NUL padded. -/
def exampleMembers : List Member :=
  [⟨fourCC "IART", ascii "Test Artist\x00"⟩, ⟨fourCC "INAM", ascii "Test Title\x00\x00"⟩]

/-- The example container: a WAVE form with the INFO list first and a second
chunk after it. -/
def exampleFile : List Byte :=
  riffFile 64 (fourCC "WAVE") (fourCC "INFO") exampleMembers (ascii "data\x00\x00\x00\x00")

/-- The error `getUnidenRiffInfo` makes for a first chunk that is not a
list. -/
def errNotList : GoError :=
  .new (ascii "chunk is not riff.LIST")

/-- The bytes of a container whose first top-level chunk has the given tag and
declared length, followed by `rest`. -/
def firstChunkFile (riffLen : Nat) (formType tag : FourCC) (n : Nat) (rest : List Byte) :
    List Byte :=
  ascii "RIFF" ++ le32 riffLen ++ formType.bytes ++ tag.bytes ++ le32 n ++ rest

/-- A container whose first chunk is the format chunk, not a list; a `LIST`
chunk follows it. -/
def fmtFirstFile : List Byte :=
  firstChunkFile 24 (fourCC "WAVE") (fourCC "fmt ") 4
    (ascii "\x01\x00\x01\x00LIST\x00\x00\x00\x00")

/-- The handler of the examples. -/
def exampleHandler : Handler :=
  ⟨ascii "/data", ascii "/cache"⟩

/-- The request of the examples: `/clip1.<kind>` without a query. -/
def exampleRequest : Request :=
  ⟨ascii "clip1", []⟩

/-- A stand-in for `sha1.Sum` in the examples: twenty times the length byte of
the input. -/
def exampleSum (s : GoString) : Digest :=
  ⟨List.replicate 20 (Fin.ofNat s.length), List.length_replicate _ _⟩

/-- A second stand-in for `sha1.Sum` in the examples, with twenty different
bytes: the length of the input plus 13 times the position, modulo 256. -/
def rampSum (s : GoString) : Digest :=
  ⟨(List.range 20).map (fun i => Fin.ofNat (s.length + 13 * i)), by simp⟩

/-- A container whose first chunk is not a list and declares more bytes than
the form has left. -/
def overlongFirstFile : List Byte :=
  firstChunkFile 12 (fourCC "WAVE") (fourCC "fmt ") 16
    (ascii "\x01\x00\x01\x00\x44\x2c\x00\x00\x88\x58\x01\x00\x02\x00\x10\x00")

/-- A stand-in for `json.Marshal` in the examples: the entries in the order of
the list, without escaping. -/
def exampleMarshal (m : InfoMap) : GoString :=
  ascii "\x7b" ++
    (ascii ",").intercalate
      (m.map (fun e => ascii "\"" ++ e.1 ++ ascii "\":\"" ++ e.2 ++ ascii "\"")) ++
    ascii "\x7d"

/-- The externals of the examples, with a `sox` that writes an image to its
destination. -/
def exampleExternals : Externals where
  sum := exampleSum
  Marshal := fun m => .ok (exampleMarshal m)
  soxStart := fun _ _ _ => none
  soxWait := fun fs _ cFile => WriteFile fs cFile (ascii "image")

/-- The externals of the examples when `sox` is not installed: the launch
fails. -/
def noSoxExternals : Externals :=
  { exampleExternals with
    soxStart := fun _ _ _ => some (.sys (ascii "exec: sox: executable file not found")) }

/-- The externals of the examples with a `sox` that starts, leaves a partial
image at its destination, and exits with a failure. -/
def messySoxExternals : Externals :=
  { exampleExternals with
    soxWait := fun fs _ cFile =>
      ((WriteFile fs cFile (ascii "ima")).1, some (.sys (ascii "exit status 2"))) }

/-- The externals of the examples with a `sox` that starts and exits with a
failure, leaving no file. -/
def failingSoxExternals : Externals :=
  { exampleExternals with
    soxWait := fun fs _ _ => (fs, some (.sys (ascii "exit status 2"))) }

/-- The source file of the example request. -/
def exampleWav : GoString :=
  (exampleHandler.gi exampleSum exampleRequest []).1

/-- The cache file of the example request for the kind `json`. -/
def exampleJson : GoString :=
  (exampleHandler.gi exampleSum exampleRequest (ascii "json")).2

/-- The cache file of the example request for the kind `png`. -/
def examplePng : GoString :=
  (exampleHandler.gi exampleSum exampleRequest (ascii "png")).2

/-- A fresh response: no header, no body. -/
def freshResponse : ResponseWriter :=
  ⟨none, []⟩

/-- The state of a first request on the given file system. -/
def startState (fs : FS) : State :=
  ⟨fs, freshResponse, 0, 0⟩

/-- The state in which only the example source file exists. -/
def sourceOnly : State :=
  startState (FS.ofList [(exampleWav, .file exampleFile)])

/-- The state in which the example source file exists and the cache directory
cannot be written. -/
def readOnlyCache : State :=
  startState
    { FS.ofList [(exampleWav, .file exampleFile)] with
      writeErr := fun _ => some ⟨.sys (ascii "permission denied"), none⟩ }

/-- The state in which both cache files of the example request exist. -/
def cachedState : State :=
  startState
    (FS.ofList [(exampleJson, .file (ascii "\x7b\x7d")), (examplePng, .file (ascii "image"))])

/-- The state in which the `json` cache file of the example request exists and
cannot be opened. -/
def unreadableCache : State :=
  startState (FS.ofList [(exampleJson, .unreadable (ascii "permission denied"))])

/-- The state in which the example source file is a container whose first
chunk is not a list. -/
def fmtFirstState : State :=
  startState (FS.ofList [(exampleWav, .file fmtFirstFile)])

/-- The state after a first image request whose `sox` run leaves a partial
image and fails. -/
def messyFirst : State :=
  exampleHandler.sendPNG messySoxExternals sourceOnly exampleRequest

/-- The state after the same image request made again, with a fresh
response. -/
def messySecond : State :=
  exampleHandler.sendPNG messySoxExternals { messyFirst with rw := freshResponse }
    exampleRequest

/-! ## Key derivation: theorems -/

theorem ascii_dash : ascii "-" = [dash] := by decide

theorem cacheStr_eq (p q : GoString) : cacheStr p q = p ++ dash :: q := by
  simp [cacheStr, ascii_dash]

/-- Two strings split at their first separator byte agree part by part. -/
theorem append_sep_inj (c : Byte) :
    ∀ (p1 p2 q1 q2 : GoString), c ∉ p1 → c ∉ p2 →
      p1 ++ c :: q1 = p2 ++ c :: q2 → p1 = p2 ∧ q1 = q2 := by
  intro p1
  induction p1 with
  | nil =>
    intro p2 q1 q2 _ h2 h
    cases p2 with
    | nil => simpa using h
    | cons b p2 =>
      simp only [List.nil_append, List.cons_append, List.cons.injEq] at h
      exact absurd (h.1 ▸ List.mem_cons_self _ _) h2
  | cons a p1 ih =>
    intro p2 q1 q2 h1 h2 h
    cases p2 with
    | nil =>
      simp only [List.nil_append, List.cons_append, List.cons.injEq] at h
      exact absurd (h.1 ▸ List.mem_cons_self _ _) h1
    | cons b p2 =>
      simp only [List.cons_append, List.cons.injEq] at h
      have h1' : c ∉ p1 := fun hm => h1 (List.mem_cons_of_mem _ hm)
      have h2' : c ∉ p2 := fun hm => h2 (List.mem_cons_of_mem _ hm)
      obtain ⟨hp, hq⟩ := ih p2 q1 q2 h1' h2' h.2
      exact ⟨by rw [h.1, hp], hq⟩

/-- Two strings split at their last separator byte agree part by part. -/
theorem append_sep_inj_right (c : Byte) (p1 p2 q1 q2 : GoString) (h1 : c ∉ q1) (h2 : c ∉ q2)
    (h : p1 ++ c :: q1 = p2 ++ c :: q2) : p1 = p2 ∧ q1 = q2 := by
  have hr := congrArg List.reverse h
  simp only [List.reverse_append, List.reverse_cons, List.append_assoc, List.singleton_append]
    at hr
  obtain ⟨hq, hp⟩ := append_sep_inj c q1.reverse q2.reverse p1.reverse p2.reverse
    (by simpa using h1) (by simpa using h2) hr
  exact ⟨List.reverse_injective hp, List.reverse_injective hq⟩

theorem hexDigit_lower (n : Nat) (h : n < 16) : isLowerHex (hexDigit n) = true := by
  interval_cases n <;> decide

theorem hexValue_hexDigit (n : Nat) (h : n < 16) : hexValue (hexDigit n) = some n := by
  interval_cases n <;> decide

theorem hexEncode_length (bs : List Byte) : (hexEncode bs).length = 2 * bs.length := by
  induction bs with
  | nil => rfl
  | cons b bs ih => simp only [hexEncode, List.length_cons, ih]; omega

theorem hexEncode_lower (bs : List Byte) : ∀ c ∈ hexEncode bs, isLowerHex c = true := by
  induction bs with
  | nil => intro c hc; simp [hexEncode] at hc
  | cons b bs ih =>
    intro c hc
    simp only [hexEncode, List.mem_cons] at hc
    rcases hc with hc | hc | hc
    · rw [hc]; exact hexDigit_lower _ (by omega)
    · rw [hc]; exact hexDigit_lower _ (by omega)
    · exact ih c hc

theorem hexDecode_hexEncode (bs : List Byte) : hexDecode (hexEncode bs) = some bs := by
  induction bs with
  | nil => rfl
  | cons b bs ih =>
    have hb : (Fin.ofNat (b.val / 16 * 16 + b.val % 16) : Byte) = b := by
      apply Fin.ext
      simp only [Fin.ofNat, Fin.val_mk]
      omega
    simp only [hexEncode, hexDecode, hexValue_hexDigit _ (show b.val / 16 < 16 by omega),
      hexValue_hexDigit _ (show b.val % 16 < 16 by omega), ih, hb]

/-- C1 (as stated, refuted): the requests with path `a-b`, query `c` and with
path `a`, query `b-c` differ in both components, and `gi` feeds the same byte
string `a-b-c` to the digest for both. -/
theorem cacheStr_collision :
    (ascii "a-b", ascii "c") ≠ (ascii "a", ascii "b-c") ∧
      cacheStr (ascii "a-b") (ascii "c") = cacheStr (ascii "a") (ascii "b-c") := by
  decide

/-- C1 (amended): two (path, query) pairs that differ in at least one
component, and whose paths both lack the separator byte `-` or whose queries
both lack it, give different digest inputs. -/
theorem cacheStr_injective_without_dash (p1 q1 p2 q2 : GoString)
    (hfree : (dash ∉ p1 ∧ dash ∉ p2) ∨ (dash ∉ q1 ∧ dash ∉ q2))
    (hne : (p1, q1) ≠ (p2, q2)) :
    cacheStr p1 q1 ≠ cacheStr p2 q2 := by
  intro h
  rw [cacheStr_eq, cacheStr_eq] at h
  apply hne
  rcases hfree with ⟨h1, h2⟩ | ⟨h1, h2⟩
  · obtain ⟨hp, hq⟩ := append_sep_inj dash p1 p2 q1 q2 h1 h2 h
    rw [hp, hq]
  · obtain ⟨hp, hq⟩ := append_sep_inj_right dash p1 p2 q1 q2 h1 h2 h
    rw [hp, hq]

theorem cacheStr_injective_without_dash_witness :
    ((dash ∉ ascii "a" ∧ dash ∉ ascii "b") ∨ (dash ∉ ascii "x=1" ∧ dash ∉ ascii "x=1")) ∧
      (ascii "a", ascii "x=1") ≠ (ascii "b", ascii "x=1") ∧
      cacheStr (ascii "a") (ascii "x=1") ≠ cacheStr (ascii "b") (ascii "x=1") :=
  ⟨by decide, by decide,
    cacheStr_injective_without_dash (ascii "a") (ascii "x=1") (ascii "b") (ascii "x=1")
      (by decide) (by decide)⟩

/-- C10: the cache file of `gi` is `<Cache>/<d>.<t>` (the bytes 47 and 46 are
`/` and `.`), where `d` is the digest of the path, the byte 45 (`-`) and the
raw query, in this order, written as 40 lowercase hexadecimal digits that read
back as the 20 digest bytes (160 bits); requests with the same path and query
get the same `d` for every kind `t` and every handler; the source file is
`<Base>/<path>.wav`. -/
theorem gi_locations (sum : GoString → Digest) (f : Handler) (r : Request) (t : GoString) :
    (f.gi sum r t).2
        = f.Cache ++ [47] ++ hexEncode (sum (r.path ++ [45] ++ r.rawQuery)).bytes
            ++ [46] ++ t ∧
      (hexEncode (sum (r.path ++ [45] ++ r.rawQuery)).bytes).length = 40 ∧
      (∀ c ∈ hexEncode (sum (r.path ++ [45] ++ r.rawQuery)).bytes,
        (48 ≤ c.val ∧ c.val ≤ 57) ∨ (97 ≤ c.val ∧ c.val ≤ 102)) ∧
      hexDecode (hexEncode (sum (r.path ++ [45] ++ r.rawQuery)).bytes)
        = some (sum (r.path ++ [45] ++ r.rawQuery)).bytes ∧
      (sum (r.path ++ [45] ++ r.rawQuery)).bytes.length * 8 = 160 ∧
      (∀ (f' : Handler) (r' : Request) (t' : GoString),
        r'.path = r.path → r'.rawQuery = r.rawQuery →
          (f'.gi sum r' t').2
            = f'.Cache ++ [47] ++ hexEncode (sum (r.path ++ [45] ++ r.rawQuery)).bytes
                ++ [46] ++ t') ∧
      (f.gi sum r t).1 = f.Base ++ [47] ++ r.path ++ [46, 119, 97, 118] := by
  have hslash : ascii "/" = [47] := by decide
  have hdot : ascii "." = [46] := by decide
  have hwav : ascii ".wav" = [46, 119, 97, 118] := by decide
  have hstr : ∀ p q : GoString, cacheStr p q = p ++ [45] ++ q := by
    intro p q
    have hdash : ascii "-" = [45] := by decide
    simp only [cacheStr, hdash]
  have hc : ∀ (f' : Handler) (r' : Request) (t' : GoString),
      (f'.gi sum r' t').2
        = f'.Cache ++ [47] ++ hexEncode (sum (r'.path ++ [45] ++ r'.rawQuery)).bytes
            ++ [46] ++ t' := by
    intro f' r' t'
    simp only [Handler.gi, hstr, hslash, hdot]
  refine ⟨hc f r t, ?_, ?_, hexDecode_hexEncode _, ?_, ?_, ?_⟩
  · rw [hexEncode_length, (sum _).size]
  · intro c hmem
    have h := hexEncode_lower _ c hmem
    simpa [isLowerHex] using h
  · rw [(sum _).size]
  · intro f' r' t' hp hq
    rw [hc f' r' t', hp, hq]
  · simp only [Handler.gi, hslash, hwav]

theorem gi_locations_witness :
    (exampleHandler.gi rampSum ⟨ascii "clip1", ascii "x=1"⟩ (ascii "png"))
        = (ascii "/data/clip1.wav",
            ascii "/cache/091623303d4a5764717e8b98a5b2bfccd9e6f300.png") ∧
      (rampSum (ascii "clip1-x=1")).bytes
        = [9, 22, 35, 48, 61, 74, 87, 100, 113, 126, 139, 152, 165, 178, 191, 204, 217, 230,
            243, 0] ∧
      (exampleHandler.gi rampSum ⟨ascii "clip1", ascii "x=1"⟩ (ascii "png")).2
        = exampleHandler.Cache ++ [47]
            ++ hexEncode (rampSum (ascii "clip1" ++ [45] ++ ascii "x=1")).bytes ++ [46]
            ++ ascii "png" :=
  ⟨by decide, by decide,
    (gi_locations rampSum exampleHandler ⟨ascii "clip1", ascii "x=1"⟩ (ascii "png")).1⟩

/-! ## The RIFF reader: theorems -/

theorem u32_le32 (n : Nat) (rest : List Byte) (h : n < 2 ^ 32) : u32 (le32 n ++ rest) = n := by
  simp only [le32, u32, List.cons_append, List.nil_append, Fin.ofNat, Fin.val_mk]
  omega

theorem le32_length (n : Nat) : (le32 n).length = 4 := rfl

theorem FourCC.bytes_length (c : FourCC) : c.bytes.length = 4 := rfl

theorem FourCC.ofBuf_bytes (c : FourCC) (rest : List Byte) : FourCC.ofBuf (c.bytes ++ rest) = c := rfl

theorem readFull_append (a rest : List Byte) : readFull (a ++ rest) a.length = .ok (a, rest) := by
  simp [readFull]

theorem Reader.Next_chunk (p : Bool) (pad : Byte) (tag : FourCC) (n T : Nat) (rest : List Byte)
    (hn : n < 2 ^ 32) (hT : 8 + n ≤ T) :
    Reader.Next
        { r := (if p then [pad] else []) ++ (tag.bytes ++ (le32 n ++ rest)), err := none,
          totalLen := (if p then 1 else 0) + T, chunkLen := 0, padded := p }
      = (.ok (tag, n),
          { r := rest, err := none, totalLen := T - 8, chunkLen := n,
            padded := decide (n % 2 = 1) }) := by
  have h8 : readFull (tag.bytes ++ (le32 n ++ rest)) 8 = .ok (tag.bytes ++ le32 n, rest) := by
    rw [← List.append_assoc]
    exact readFull_append (tag.bytes ++ le32 n) rest
  have hu : u32 (List.drop 4 (tag.bytes ++ le32 n)) = n := by
    have := u32_le32 n [] hn
    simpa [FourCC.bytes] using this
  have hf : FourCC.ofBuf (tag.bytes ++ le32 n) = tag := rfl
  have c1 : ¬ T = 0 := by omega
  have c2 : ¬ T < 8 := by omega
  have c3 : ¬ T - 8 < n := by omega
  cases p
  · simp [Reader.Next, Reader.skipPadding, Reader.nextHeader, Reader.fail, h8, hu, hf, c1, c2, c3]
  · have h1 : readFull (pad :: (tag.bytes ++ (le32 n ++ rest))) 1
        = .ok ([pad], tag.bytes ++ (le32 n ++ rest)) :=
      readFull_append [pad] _
    simp [Reader.Next, Reader.skipPadding, Reader.nextHeader, Reader.fail, h8, hu, hf, h1, c1, c2, c3]

theorem Reader.Next_done (p : Bool) (pad : Byte) :
    ∃ z, Reader.Next
        { r := (if p then [pad] else []), err := none,
          totalLen := (if p then 1 else 0), chunkLen := 0, padded := p }
      = (.error .eof, z) := by
  cases p
  · simp [Reader.Next, Reader.skipPadding, Reader.nextHeader, Reader.fail]
  · have h1 : readFull [pad] 1 = .ok ([pad], []) := readFull_append [pad] []
    simp [Reader.Next, Reader.skipPadding, Reader.nextHeader, Reader.fail, h1]

theorem Reader.ReadAll_chunk (payload rest : List Byte) (T : Nat) (p : Bool) :
    Reader.ReadAll
        { r := payload ++ rest, err := none, totalLen := T, chunkLen := payload.length,
          padded := p }
      = ((payload, none),
          { r := rest, err := none, totalLen := T - payload.length, chunkLen := 0,
            padded := p }) := by
  simp [Reader.ReadAll]

theorem chunkBytes_length (tag : FourCC) (payload : List Byte) :
    (chunkBytes tag payload).length
      = 8 + payload.length + (if payload.length % 2 = 1 then 1 else 0) := by
  simp only [chunkBytes, List.length_append, FourCC.bytes_length, le32_length]
  split <;> simp

theorem infoLoop_members :
    ∀ (ms : List Member) (fuel : Nat) (acc : InfoMap) (p : Bool) (pad : Byte) (T : Nat),
      (membersBytes ms).length < fuel →
      (membersBytes ms).length < 2 ^ 32 →
      T = (if p then 1 else 0) + (membersBytes ms).length →
      infoLoop fuel
          { r := (if p then [pad] else []) ++ membersBytes ms, err := none, totalLen := T,
            chunkLen := 0, padded := p } acc
        = .returned (collect acc ms, none) := by
  intro ms
  induction ms with
  | nil =>
    intro fuel acc p pad T hfuel _ hT
    obtain ⟨fuel, rfl⟩ : ∃ k, fuel = k + 1 := ⟨fuel - 1, by omega⟩
    obtain ⟨z, hz⟩ := Reader.Next_done p pad
    simp only [membersBytes, List.append_nil, List.length_nil, Nat.add_zero] at hT ⊢
    subst hT
    simp [infoLoop, hz, collect]
  | cons m ms ih =>
    intro fuel acc p pad T hfuel h32 hT
    obtain ⟨fuel, rfl⟩ : ∃ k, fuel = k + 1 := ⟨fuel - 1, by omega⟩
    have hlen : (membersBytes (m :: ms)).length
        = 8 + m.payload.length + (if m.payload.length % 2 = 1 then 1 else 0)
          + (membersBytes ms).length := by
      simp only [membersBytes, List.length_append, chunkBytes_length]
    have hpad : (if m.payload.length % 2 = 1 then 1 else 0) ≤ 1 := by split <;> omega
    have hr : membersBytes (m :: ms)
        = m.tag.bytes ++ (le32 m.payload.length ++ (m.payload ++
            ((if decide (m.payload.length % 2 = 1) = true then [(0 : Byte)] else [])
              ++ membersBytes ms))) := by
      simp [membersBytes, chunkBytes]
    have hnext := Reader.Next_chunk p pad m.tag m.payload.length
      ((if p then 1 else 0) + (membersBytes (m :: ms)).length - (if p then 1 else 0))
      (m.payload ++ ((if decide (m.payload.length % 2 = 1) = true then [(0 : Byte)] else [])
        ++ membersBytes ms)) (by omega) (by omega)
    have hT' : (if p then 1 else 0)
        + ((if p then 1 else 0) + (membersBytes (m :: ms)).length - (if p then 1 else 0)) = T := by
      omega
    rw [hT', ← hr] at hnext
    rw [infoLoop, hnext]
    simp only [Reader.ReadAll_chunk]
    have := ih fuel (acc.set m.tag.bytes (trimRight m.payload 0))
      (decide (m.payload.length % 2 = 1)) 0
      ((if p then 1 else 0) + (membersBytes (m :: ms)).length - (if p then 1 else 0) - 8
        - m.payload.length)
      (by omega) (by omega)
      (by
        rw [hlen]
        by_cases hodd : m.payload.length % 2 = 1 <;> simp [hodd] <;> omega)
    rw [this]
    rfl


theorem InfoMap.get_set (m : InfoMap) (k v k' : GoString) :
    (m.set k v).get k' = if k = k' then some v else m.get k' := by
  induction m with
  | nil => simp [InfoMap.set, InfoMap.get]
  | cons e m ih =>
    obtain ⟨k0, v0⟩ := e
    by_cases h0 : k0 = k
    · subst h0
      by_cases h1 : k0 = k' <;> simp [InfoMap.set, InfoMap.get, h1]
    · by_cases h1 : k0 = k'
      · subst h1
        have h2 : ¬ k = k0 := fun h => h0 h.symm
        simp [InfoMap.set, InfoMap.get, h0, h2]
      · simp [InfoMap.set, InfoMap.get, h0, h1, ih]

theorem InfoMap.get_collect (k : GoString) :
    ∀ (ms : List Member) (acc : InfoMap),
      (collect acc ms).get k
        = ((lastPayload ms k).map (fun p => trimRight p 0)).or (acc.get k) := by
  intro ms
  induction ms with
  | nil => intro acc; simp [collect, lastPayload]
  | cons m ms ih =>
    intro acc
    have hc : collect acc (m :: ms) = collect (acc.set m.tag.bytes (trimRight m.payload 0)) ms :=
      rfl
    rw [hc, ih, InfoMap.get_set]
    simp only [lastPayload, List.reverse_cons, List.find?_append]
    cases hfind : List.find? (fun m => decide (m.tag.bytes = k)) ms.reverse with
    | some x => simp
    | none =>
      by_cases hk : m.tag.bytes = k <;> simp [List.find?, hk]

theorem lastPayload_isSome (ms : List Member) (k : GoString) :
    (lastPayload ms k).isSome ↔ k ∈ ms.map (fun m => m.tag.bytes) := by
  simp only [lastPayload, Option.isSome_map', List.find?_isSome, List.mem_reverse,
    decide_eq_true_eq, List.mem_map]

theorem trimRight_spec (c : Byte) (s : GoString) :
    ∃ n, s = trimRight s c ++ List.replicate n c ∧ (trimRight s c).getLast? ≠ some c := by
  induction s with
  | nil => exact ⟨0, by simp [trimRight]⟩
  | cons b s ih =>
    obtain ⟨n, hs, hl⟩ := ih
    cases ht : trimRight s c with
    | nil =>
      rw [ht] at hs hl
      by_cases hb : b = c
      · refine ⟨n + 1, ?_⟩
        simp only [trimRight, ht, hb, if_true]
        simp only [List.nil_append] at hs
        rw [hs]
        simp [List.replicate_succ]
      · refine ⟨n, ?_⟩
        simp only [trimRight, ht, hb, if_false]
        simp only [List.nil_append] at hs
        refine ⟨by rw [hs]; simp, by simpa using hb⟩
    | cons x xs =>
      rw [ht] at hs hl
      refine ⟨n, ?_⟩
      simp only [trimRight, ht]
      refine ⟨by rw [List.cons_append, ← hs], ?_⟩
      rw [List.getLast?_cons_cons]
      exact hl

theorem NewReader_riff (riffLen : Nat) (formType : FourCC) (rest : List Byte)
    (h4 : 4 ≤ riffLen) (h32 : riffLen < 2 ^ 32) :
    NewReader (ascii "RIFF" ++ (le32 riffLen ++ (formType.bytes ++ rest)))
      = .ok (formType,
          { r := rest, err := none, totalLen := riffLen - 4, chunkLen := 0, padded := false }) := by
  have h8 : readFull (ascii "RIFF" ++ (le32 riffLen ++ (formType.bytes ++ rest))) 8
      = .ok (ascii "RIFF" ++ le32 riffLen, formType.bytes ++ rest) := by
    rw [← List.append_assoc]
    exact readFull_append (ascii "RIFF" ++ le32 riffLen) _
  have hsig : FourCC.ofBuf (ascii "RIFF" ++ le32 riffLen) = ⟨82, 73, 70, 70⟩ := rfl
  have hu : u32 (List.drop 4 (ascii "RIFF" ++ le32 riffLen)) = riffLen := by
    have := u32_le32 riffLen [] h32
    simpa using this
  have h4' : readFull (formType.bytes ++ rest) 4 = .ok (formType.bytes, rest) :=
    readFull_append formType.bytes rest
  have c1 : ¬ riffLen < 4 := by omega
  have hform : FourCC.ofBuf formType.bytes = formType := rfl
  simp [NewReader, NewListReader, h8, hsig, hu, h4', c1, hform]


theorem Reader.Next_first (tag : FourCC) (n T : Nat) (rest : List Byte)
    (hn : n < 2 ^ 32) (hT : 8 + n ≤ T) :
    Reader.Next
        { r := tag.bytes ++ (le32 n ++ rest), err := none, totalLen := T, chunkLen := 0,
          padded := false }
      = (.ok (tag, n),
          { r := rest, err := none, totalLen := T - 8, chunkLen := n,
            padded := decide (n % 2 = 1) }) := by
  have h := Reader.Next_chunk false 0 tag n T rest hn hT
  simpa using h

theorem getUnidenRiffInfo_riffFile (fs : FS) (file : GoString) (riffLen : Nat)
    (formType listType : FourCC) (ms : List Member) (rest : List Byte)
    (hfile : fs.node file = .file (riffFile riffLen formType listType ms rest))
    (hlen : 12 + (listPayload listType ms).length ≤ riffLen) (h32 : riffLen < 2 ^ 32) :
    getUnidenRiffInfo fs file = .returned (collect [] ms, none) := by
  have hdata : riffFile riffLen formType listType ms rest
      = ascii "RIFF" ++ (le32 riffLen ++ (formType.bytes ++ (LIST.bytes ++
          (le32 (listPayload listType ms).length ++ (listPayload listType ms ++
            ((if (listPayload listType ms).length % 2 = 1 then [(0 : Byte)] else [])
              ++ rest)))))) := by
    simp [riffFile, chunkBytes]
  have hopen : osOpen fs file = (some (riffFile riffLen formType listType ms rest), none) := by
    simp [osOpen, hfile]
  have hL : (listPayload listType ms).length = 4 + (membersBytes ms).length := by
    simp [listPayload, FourCC.bytes_length]
  have hnext := Reader.Next_first LIST (listPayload listType ms).length (riffLen - 4)
    (listPayload listType ms ++
      ((if (listPayload listType ms).length % 2 = 1 then [(0 : Byte)] else []) ++ rest))
    (by omega) (by omega)
  have hlist : NewListReader (listPayload listType ms).length (listPayload listType ms)
      = .ok (listType,
          { r := membersBytes ms, err := none, totalLen := (membersBytes ms).length,
            chunkLen := 0, padded := false }) := by
    have h4 : readFull (listType.bytes ++ membersBytes ms) 4 = .ok (listType.bytes, membersBytes ms) :=
      readFull_append listType.bytes _
    have hty : FourCC.ofBuf listType.bytes = listType := rfl
    have c1 : ¬ 4 + (membersBytes ms).length < 4 := by omega
    rw [hL]
    simp [NewListReader, listPayload, h4, hty, c1]
  have hloop := infoLoop_members ms ((membersBytes ms).length + 1) [] false 0
    (membersBytes ms).length (by omega) (by omega) (by simp)
  simp only [Bool.false_eq_true, if_false, List.nil_append] at hloop
  rw [getUnidenRiffInfo, hopen]
  simp only [hdata, NewReader_riff riffLen formType _ (by omega) h32, hnext, if_true,
    Reader.chunkData, List.take_left', hlist, hloop]


/-! ## Handlers: theorems -/

theorem ServeCached_absent (c : GoString) (s : State) (h : s.fs.node c = .absent) :
    ServeCached c s = (false, s) := by
  simp [ServeCached, osOpen, h, IsNotExist]

theorem ServeCached_file (c : GoString) (s : State) (data : GoString)
    (h : s.fs.node c = .file data) :
    ServeCached c s = (true, { s with rw := ioCopy s.rw (some data) }) := by
  simp [ServeCached, osOpen, h, IsNotExist]

theorem ioCopy_body (rw : ResponseWriter) (data : GoString) :
    (ioCopy rw (some data)).body = rw.body ++ data := by
  cases data with
  | nil => simp [ioCopy]
  | cons b bs => cases hst : rw.status <;> simp [ioCopy, ResponseWriter.Write, ResponseWriter.WriteHeader, hst]

theorem ioCopy_code (rw : ResponseWriter) (data : GoString) (h : rw.status = none) :
    (ioCopy rw (some data)).code = 200 := by
  cases data with
  | nil => simp [ioCopy, ResponseWriter.code, h]
  | cons b bs => simp [ioCopy, ResponseWriter.Write, ResponseWriter.WriteHeader, ResponseWriter.code, h]

theorem httpError_body (rw : ResponseWriter) (msg : GoString) (code : Nat) :
    (httpError rw msg code).body = rw.body ++ (msg ++ ascii "\n") := by
  cases hst : rw.status <;> simp [httpError, ResponseWriter.Write, ResponseWriter.WriteHeader, hst]

theorem httpError_code (rw : ResponseWriter) (msg : GoString) (code : Nat)
    (h : rw.status = none) : (httpError rw msg code).code = code := by
  simp [httpError, ResponseWriter.Write, ResponseWriter.WriteHeader, ResponseWriter.code, h]

/-- C2: when the cache file of a request holds an entry, `sendJSON` and
`sendPNG` answer with exactly the stored bytes (status 200 on a fresh
response), the file system stays as it was, and neither `getUnidenRiffInfo`
nor the `sox` process is invoked. -/
theorem cache_hit_serves_stored (x : Externals) (f : Handler) (s : State) (r : Request) :
    (∀ data, s.fs.node (f.gi x.sum r (ascii "json")).2 = .file data →
      ∃ s', f.sendJSON x s r = .returned s' ∧ s'.rw.body = s.rw.body ++ data ∧
        (s.rw.status = none → s'.rw.code = 200) ∧
        s'.fs = s.fs ∧ s'.parses = s.parses ∧ s'.soxStarts = s.soxStarts) ∧
    (∀ data, s.fs.node (f.gi x.sum r (ascii "png")).2 = .file data →
      ∃ s', f.sendPNG x s r = s' ∧ s'.rw.body = s.rw.body ++ data ∧
        (s.rw.status = none → s'.rw.code = 200) ∧
        s'.fs = s.fs ∧ s'.parses = s.parses ∧ s'.soxStarts = s.soxStarts) := by
  constructor
  · intro data h
    refine ⟨{ s with rw := ioCopy s.rw (some data) }, ?_, ioCopy_body _ _, ioCopy_code _ _,
      rfl, rfl, rfl⟩
    simp only [Handler.sendJSON, ServeCached_file _ s data h]
  · intro data h
    refine ⟨{ s with rw := ioCopy s.rw (some data) }, ?_, ioCopy_body _ _, ioCopy_code _ _,
      rfl, rfl, rfl⟩
    simp only [Handler.sendPNG, ServeCached_file _ s data h]


theorem exampleWav_eq : exampleWav = ascii "/data/clip1.wav" := by decide

theorem exampleJson_eq :
    exampleJson = ascii "/cache/0606060606060606060606060606060606060606.json" := by decide

/-- C3 (the code at the failing input): the cache file exists but cannot be
opened; `ServeCached` copies nothing and reports true, and `sendJSON` returns
with an empty response of status 200 instead of an error. -/
theorem unreadable_cache_reported_as_hit :
    (osOpen unreadableCache.fs exampleJson).2 = some (.sys (ascii "permission denied")) ∧
      (ServeCached exampleJson unreadableCache).1 = true ∧
      (ServeCached exampleJson unreadableCache).2.rw = freshResponse ∧
      exampleHandler.sendJSON exampleExternals unreadableCache exampleRequest
        = .returned unreadableCache ∧
      unreadableCache.rw.code = 200 ∧ unreadableCache.rw.body = [] :=
  ⟨by decide, by decide, by decide, rfl, by decide, by decide⟩

/-- C4 (the code at the failing inputs): for a source file that does not exist
and for one without the RIFF signature, `getUnidenRiffInfo` does not return:
`log.Fatal` ends the process, and `sendJSON` with it. -/
theorem getUnidenRiffInfo_exits :
    getUnidenRiffInfo (FS.ofList []) exampleWav = .exited 1 ∧
      getUnidenRiffInfo (FS.ofList [(exampleWav, .file (ascii "not a RIFF file"))]) exampleWav
        = .exited 1 ∧
      exampleHandler.sendJSON exampleExternals (startState (FS.ofList [])) exampleRequest
        = .exited 1 :=
  ⟨by decide, by decide, rfl⟩


/-- The first `Next` on a list whose `T` bytes do not cover the first chunk
fails: with `io.EOF` when the list is empty, with a short chunk header when it
has fewer than eight bytes, and with list subchunk too long otherwise. -/
theorem Reader.Next_first_short (tag : FourCC) (n T : Nat) (rest : List Byte)
    (hn : n < 2 ^ 32) (hT : ¬ 8 + n ≤ T) :
    ∃ z', Reader.Next
        { r := tag.bytes ++ (le32 n ++ rest), err := none, totalLen := T, chunkLen := 0,
          padded := false }
      = (.error (if T = 0 then .eof else if T < 8 then .errShortChunkHeader
          else .errListSubchunkTooLong), z') := by
  have h8 : readFull (tag.bytes ++ (le32 n ++ rest)) 8 = .ok (tag.bytes ++ le32 n, rest) := by
    rw [← List.append_assoc]
    exact readFull_append (tag.bytes ++ le32 n) rest
  have hu : u32 (List.drop 4 (tag.bytes ++ le32 n)) = n := by
    have := u32_le32 n [] hn
    simpa [FourCC.bytes] using this
  by_cases h0 : T = 0
  · simp [Reader.Next, Reader.skipPadding, Reader.nextHeader, Reader.fail, h0]
  · by_cases h1 : T < 8
    · simp [Reader.Next, Reader.skipPadding, Reader.nextHeader, Reader.fail, h0, h1]
    · have h2 : T - 8 < n := by omega
      simp [Reader.Next, Reader.skipPadding, Reader.nextHeader, Reader.fail, h0, h1, h8, hu, h2]

theorem getUnidenRiffInfo_firstChunk (fs : FS) (file : GoString) (riffLen n : Nat)
    (formType tag : FourCC) (rest : List Byte)
    (hfile : fs.node file = .file (firstChunkFile riffLen formType tag n rest))
    (htag : tag ≠ LIST) (h4 : 4 ≤ riffLen) (h32 : riffLen < 2 ^ 32) (hn : n < 2 ^ 32) :
    getUnidenRiffInfo fs file
      = .returned ([], some
          (if riffLen = 4 then .eof else if riffLen < 12 then .errShortChunkHeader
            else if riffLen < 12 + n then .errListSubchunkTooLong else errNotList)) := by
  have hdata : firstChunkFile riffLen formType tag n rest
      = ascii "RIFF" ++ (le32 riffLen ++ (formType.bytes ++ (tag.bytes ++ (le32 n ++ rest)))) := by
    simp [firstChunkFile]
  have hopen : osOpen fs file = (some (firstChunkFile riffLen formType tag n rest), none) := by
    simp [osOpen, hfile]
  rw [getUnidenRiffInfo, hopen]
  by_cases hlen : 12 + n ≤ riffLen
  · have hnext := Reader.Next_first tag n (riffLen - 4) rest hn (by omega)
    have c1 : ¬ riffLen = 4 := by omega
    have c2 : ¬ riffLen < 12 := by omega
    have c3 : ¬ riffLen < 12 + n := by omega
    simp only [hdata, NewReader_riff riffLen formType _ h4 h32, hnext, htag, if_false,
      errNotList, c1, c2, c3]
  · obtain ⟨z', hnext⟩ := Reader.Next_first_short tag n (riffLen - 4) rest hn (by omega)
    have c3 : riffLen < 12 + n := by omega
    simp only [hdata, NewReader_riff riffLen formType _ h4 h32, hnext]
    by_cases c1 : riffLen = 4
    · simp [c1]
    · by_cases c2 : riffLen < 12
      · have d1 : ¬ riffLen - 4 = 0 := by omega
        have d2 : riffLen - 4 < 8 := by omega
        simp [c1, c2, d1, d2]
      · have d1 : ¬ riffLen - 4 = 0 := by omega
        have d2 : ¬ riffLen - 4 < 8 := by omega
        simp [c1, c2, c3, d1, d2]

/-- C7 (as stated, refuted): the first chunk of this container has the tag
`fmt `, not `LIST`, and declares 16 bytes in a form of declared length 12;
`getUnidenRiffInfo` returns the reader's error `riff: list subchunk too long`,
not the error `chunk is not riff.LIST`. -/
theorem overlong_first_chunk_other_error :
    overlongFirstFile
        = firstChunkFile 12 (fourCC "WAVE") (fourCC "fmt ") 16
            (ascii "\x01\x00\x01\x00\x44\x2c\x00\x00\x88\x58\x01\x00\x02\x00\x10\x00") ∧
      fourCC "fmt " ≠ LIST ∧
      getUnidenRiffInfo (FS.ofList [(exampleWav, .file overlongFirstFile)]) exampleWav
        = .returned ([], some .errListSubchunkTooLong) ∧
      GoError.errListSubchunkTooLong ≠ errNotList ∧
      GoError.errListSubchunkTooLong.Error = ascii "riff: list subchunk too long" ∧
      errNotList.Error = ascii "chunk is not riff.LIST" := by
  decide

/-- C7 (amended): for a container with an accepted RIFF header (declared form
length `riffLen` at least 4) whose first top-level chunk header carries a tag
other than `LIST` and the length `n`, whatever follows that header,
`getUnidenRiffInfo` returns an error with an empty map and never a successful
result: the error `chunk is not riff.LIST` when the form covers the chunk
(`12 + n ≤ riffLen`), and otherwise the reader's error (`io.EOF` for a form
without chunks, short chunk header, or list subchunk too long); on a cache miss
`sendJSON` then answers with that error (status 504 on a fresh response) and
leaves the file system as it was. -/
theorem first_chunk_not_list (riffLen n : Nat) (formType tag : FourCC) (rest : List Byte)
    (htag : tag ≠ LIST) (h4 : 4 ≤ riffLen) (h32 : riffLen < 2 ^ 32) (hn : n < 2 ^ 32) :
    ∃ err : GoError,
      err = (if riffLen = 4 then .eof else if riffLen < 12 then .errShortChunkHeader
        else if riffLen < 12 + n then .errListSubchunkTooLong else errNotList) ∧
      (12 + n ≤ riffLen → err = errNotList) ∧
      (∀ (fs : FS) (file : GoString),
        fs.node file = .file (firstChunkFile riffLen formType tag n rest) →
          getUnidenRiffInfo fs file = .returned ([], some err)) ∧
      (∀ (x : Externals) (f : Handler) (s : State) (r : Request),
        s.fs.node (f.gi x.sum r (ascii "json")).1
            = .file (firstChunkFile riffLen formType tag n rest) →
        s.fs.node (f.gi x.sum r (ascii "json")).2 = .absent →
          ∃ s', f.sendJSON x s r = .returned s' ∧
            s'.rw.body = s.rw.body ++ (err.Error ++ ascii "\n") ∧
            (s.rw.status = none → s'.rw.code = 504) ∧ s'.fs = s.fs) := by
  refine ⟨_, rfl, ?_, ?_, ?_⟩
  · intro hlen
    have c1 : ¬ riffLen = 4 := by omega
    have c2 : ¬ riffLen < 12 := by omega
    have c3 : ¬ riffLen < 12 + n := by omega
    simp only [c1, c2, c3, if_false]
  · intro fs file hfile
    exact getUnidenRiffInfo_firstChunk fs file riffLen n formType tag rest hfile htag h4 h32 hn
  · intro x f s r hfile hmiss
    have hinfo := getUnidenRiffInfo_firstChunk s.fs _ riffLen n formType tag rest hfile htag
      h4 h32 hn
    refine ⟨ServeError _ { s with parses := s.parses + 1 }, ?_,
      httpError_body _ _ _, httpError_code _ _ _, rfl⟩
    simp only [Handler.sendJSON, ServeCached_absent _ s hmiss, hinfo]

theorem first_chunk_not_list_witness :
    fourCC "fmt " ≠ LIST ∧ 4 ≤ 24 ∧ 24 < 2 ^ 32 ∧ 4 < 2 ^ 32 ∧ 12 + 4 ≤ 24 ∧
    fmtFirstFile
      = firstChunkFile 24 (fourCC "WAVE") (fourCC "fmt ") 4
          (ascii "\x01\x00\x01\x00LIST\x00\x00\x00\x00") ∧
    getUnidenRiffInfo fmtFirstState.fs exampleWav = .returned ([], some errNotList) ∧
    ∃ err : GoError,
      err = (if 24 = 4 then .eof else if 24 < 12 then .errShortChunkHeader
        else if 24 < 12 + 4 then .errListSubchunkTooLong else errNotList) ∧
      (12 + 4 ≤ 24 → err = errNotList) ∧
      (∀ (fs : FS) (file : GoString),
        fs.node file = .file (firstChunkFile 24 (fourCC "WAVE") (fourCC "fmt ") 4
            (ascii "\x01\x00\x01\x00LIST\x00\x00\x00\x00")) →
          getUnidenRiffInfo fs file = .returned ([], some err)) ∧
      (∀ (x : Externals) (f : Handler) (s : State) (r : Request),
        s.fs.node (f.gi x.sum r (ascii "json")).1
            = .file (firstChunkFile 24 (fourCC "WAVE") (fourCC "fmt ") 4
                (ascii "\x01\x00\x01\x00LIST\x00\x00\x00\x00")) →
        s.fs.node (f.gi x.sum r (ascii "json")).2 = .absent →
          ∃ s', f.sendJSON x s r = .returned s' ∧
            s'.rw.body = s.rw.body ++ (err.Error ++ ascii "\n") ∧
            (s.rw.status = none → s'.rw.code = 504) ∧ s'.fs = s.fs) :=
  ⟨by decide, by decide, by decide, by decide, by decide, by decide, by decide,
    first_chunk_not_list 24 4 (fourCC "WAVE") (fourCC "fmt ")
      (ascii "\x01\x00\x01\x00LIST\x00\x00\x00\x00") (by decide) (by decide) (by decide)
      (by decide)⟩

/-- C8: on a cache miss, when `getUnidenRiffInfo` returns an error in
`sendJSON`, or when the `sox` process fails to launch in `sendPNG`, the handler
answers with that error and status 504 and the file system after the request is
the one before it. -/
theorem producer_failure_writes_nothing (x : Externals) (f : Handler) (s : State)
    (r : Request) :
    (∀ (m : InfoMap) (err : GoError),
      s.fs.node (f.gi x.sum r (ascii "json")).2 = .absent →
      getUnidenRiffInfo s.fs (f.gi x.sum r (ascii "json")).1 = .returned (m, some err) →
        ∃ s', f.sendJSON x s r = .returned s' ∧ s'.rw = httpError s.rw err.Error 504 ∧
          s'.rw.body = s.rw.body ++ (err.Error ++ ascii "\n") ∧
          (s.rw.status = none → s'.rw.code = 504) ∧ s'.fs = s.fs) ∧
    (∀ (err : GoError),
      s.fs.node (f.gi x.sum r (ascii "png")).2 = .absent →
      x.soxStart s.fs (f.gi x.sum r (ascii "png")).1 (f.gi x.sum r (ascii "png")).2
          = some err →
        ∃ s', f.sendPNG x s r = s' ∧ s'.rw = httpError s.rw err.Error 504 ∧
          s'.rw.body = s.rw.body ++ (err.Error ++ ascii "\n") ∧
          (s.rw.status = none → s'.rw.code = 504) ∧ s'.fs = s.fs) := by
  constructor
  · intro m err hmiss hinfo
    refine ⟨ServeError err { s with parses := s.parses + 1 }, ?_, rfl,
      httpError_body _ _ _, httpError_code _ _ _, rfl⟩
    simp only [Handler.sendJSON, ServeCached_absent _ s hmiss, hinfo]
  · intro err hmiss hstart
    refine ⟨ServeError err { s with soxStarts := s.soxStarts + 1 }, ?_, rfl,
      httpError_body _ _ _, httpError_code _ _ _, rfl⟩
    simp only [Handler.sendPNG, ServeCached_absent _ s hmiss, hstart]


theorem producer_failure_writes_nothing_witness :
    (fmtFirstState.fs.node exampleJson = .absent ∧
      getUnidenRiffInfo fmtFirstState.fs exampleWav = .returned ([], some errNotList) ∧
      ∃ s', exampleHandler.sendJSON exampleExternals fmtFirstState exampleRequest
          = .returned s' ∧
        s'.rw = httpError fmtFirstState.rw errNotList.Error 504 ∧
        s'.rw.body = fmtFirstState.rw.body ++ (errNotList.Error ++ ascii "\n") ∧
        (fmtFirstState.rw.status = none → s'.rw.code = 504) ∧ s'.fs = fmtFirstState.fs) ∧
    (sourceOnly.fs.node examplePng = .absent ∧
      noSoxExternals.soxStart sourceOnly.fs exampleWav examplePng
        = some (.sys (ascii "exec: sox: executable file not found")) ∧
      ∃ s', exampleHandler.sendPNG noSoxExternals sourceOnly exampleRequest = s' ∧
        s'.rw = httpError sourceOnly.rw
          (GoError.sys (ascii "exec: sox: executable file not found")).Error 504 ∧
        s'.rw.body = sourceOnly.rw.body
          ++ ((GoError.sys (ascii "exec: sox: executable file not found")).Error ++ ascii "\n") ∧
        (sourceOnly.rw.status = none → s'.rw.code = 504) ∧ s'.fs = sourceOnly.fs) :=
  ⟨⟨by decide, by decide,
      (producer_failure_writes_nothing exampleExternals exampleHandler fmtFirstState
        exampleRequest).1 [] errNotList (by decide) (by decide)⟩,
    ⟨by decide, by decide,
      (producer_failure_writes_nothing noSoxExternals exampleHandler sourceOnly
        exampleRequest).2 (.sys (ascii "exec: sox: executable file not found"))
        (by decide) (by decide)⟩⟩

theorem cache_hit_serves_stored_witness :
    (cachedState.fs.node exampleJson = .file (ascii "\x7b\x7d") ∧
      ∃ s', exampleHandler.sendJSON exampleExternals cachedState exampleRequest
          = .returned s' ∧
        s'.rw.body = cachedState.rw.body ++ ascii "\x7b\x7d" ∧
        (cachedState.rw.status = none → s'.rw.code = 200) ∧
        s'.fs = cachedState.fs ∧ s'.parses = cachedState.parses ∧
        s'.soxStarts = cachedState.soxStarts) ∧
    (cachedState.fs.node examplePng = .file (ascii "image") ∧
      ∃ s', exampleHandler.sendPNG exampleExternals cachedState exampleRequest = s' ∧
        s'.rw.body = cachedState.rw.body ++ ascii "image" ∧
        (cachedState.rw.status = none → s'.rw.code = 200) ∧
        s'.fs = cachedState.fs ∧ s'.parses = cachedState.parses ∧
        s'.soxStarts = cachedState.soxStarts) :=
  ⟨⟨by decide,
      (cache_hit_serves_stored exampleExternals exampleHandler cachedState exampleRequest).1
        (ascii "\x7b\x7d") (by decide)⟩,
    ⟨by decide,
      (cache_hit_serves_stored exampleExternals exampleHandler cachedState exampleRequest).2
        (ascii "image") (by decide)⟩⟩

/-- C5 (as stated, refuted): the first image request misses the cache, `sox`
starts, leaves the partial image `ima` at the destination and fails, and the
request is answered with the error; the same request made again is answered
with status 200 and the partial image, as a cache hit, without `sox` being
started again. -/
theorem leftover_image_served_as_hit :
    sourceOnly.fs.node examplePng = .absent ∧
      messyFirst.rw = ⟨some 504, ascii "exit status 2\n"⟩ ∧
      messyFirst.soxStarts = 1 ∧
      messyFirst.fs.node examplePng = .file (ascii "ima") ∧
      (ServeCached examplePng { messyFirst with rw := freshResponse }).1 = true ∧
      messySecond.rw = ⟨some 200, ascii "ima"⟩ ∧
      messySecond.soxStarts = 1 := by
  decide

/-- C5 (amended): when an image request misses the cache and the `sox` process
starts but fails, leaving no file at the destination, the handler answers with
the error and keeps the file system the process left; the destination is not
treated as cached afterwards: on the same request made again `ServeCached`
reports a miss and `sox` is started again. -/
theorem failed_transform_not_cached (x : Externals) (f : Handler) (s : State) (r : Request)
    (err : GoError) (fs' : FS)
    (hmiss : s.fs.node (f.gi x.sum r (ascii "png")).2 = .absent)
    (hstart : x.soxStart s.fs (f.gi x.sum r (ascii "png")).1 (f.gi x.sum r (ascii "png")).2
      = none)
    (hwait : x.soxWait s.fs (f.gi x.sum r (ascii "png")).1 (f.gi x.sum r (ascii "png")).2
      = (fs', some err))
    (hclean : fs'.node (f.gi x.sum r (ascii "png")).2 = .absent) :
    (f.sendPNG x s r).rw = httpError s.rw err.Error 504 ∧
      (f.sendPNG x s r).fs = fs' ∧
      (f.sendPNG x s r).soxStarts = s.soxStarts + 1 ∧
      ∀ rw2 : ResponseWriter,
        (ServeCached (f.gi x.sum r (ascii "png")).2 { f.sendPNG x s r with rw := rw2 }).1
            = false ∧
          (f.sendPNG x { f.sendPNG x s r with rw := rw2 } r).soxStarts = s.soxStarts + 2 := by
  have h1 : f.sendPNG x s r
      = ServeError err { s with fs := fs', soxStarts := s.soxStarts + 1 } := by
    simp only [Handler.sendPNG, ServeCached_absent _ s hmiss, hstart, hwait]
  rw [h1]
  refine ⟨rfl, rfl, rfl, ?_⟩
  intro rw2
  have hmiss2 : ({ ServeError err { s with fs := fs', soxStarts := s.soxStarts + 1 } with
      rw := rw2 } : State).fs.node (f.gi x.sum r (ascii "png")).2 = .absent := hclean
  refine ⟨by rw [ServeCached_absent _ _ hmiss2], ?_⟩
  simp only [Handler.sendPNG, ServeCached_absent _ _ hmiss2]
  cases hs : x.soxStart ({ ServeError err { s with fs := fs', soxStarts := s.soxStarts + 1 }
      with rw := rw2 } : State).fs (f.gi x.sum r (ascii "png")).1
      (f.gi x.sum r (ascii "png")).2 with
  | some e => simp only [hs]; rfl
  | none =>
    simp only [hs]
    rcases hw : x.soxWait ({ ServeError err { s with fs := fs', soxStarts := s.soxStarts + 1 }
      with rw := rw2 } : State).fs (f.gi x.sum r (ascii "png")).1
      (f.gi x.sum r (ascii "png")).2 with ⟨fs2, e2⟩
    cases e2 with
    | some e => simp only [hw]; rfl
    | none =>
      simp only [hw]
      simp only [ServeCached]
      split <;> rfl


theorem failed_transform_not_cached_witness :
    sourceOnly.fs.node examplePng = .absent ∧
      failingSoxExternals.soxStart sourceOnly.fs exampleWav examplePng = none ∧
      failingSoxExternals.soxWait sourceOnly.fs exampleWav examplePng
        = (sourceOnly.fs, some (.sys (ascii "exit status 2"))) ∧
      ((exampleHandler.sendPNG failingSoxExternals sourceOnly exampleRequest).rw
          = httpError sourceOnly.rw (GoError.sys (ascii "exit status 2")).Error 504 ∧
        (exampleHandler.sendPNG failingSoxExternals sourceOnly exampleRequest).fs
          = sourceOnly.fs ∧
        (exampleHandler.sendPNG failingSoxExternals sourceOnly exampleRequest).soxStarts
          = sourceOnly.soxStarts + 1 ∧
        ∀ rw2 : ResponseWriter,
          (ServeCached examplePng
              { exampleHandler.sendPNG failingSoxExternals sourceOnly exampleRequest with
                rw := rw2 }).1 = false ∧
            (exampleHandler.sendPNG failingSoxExternals
              { exampleHandler.sendPNG failingSoxExternals sourceOnly exampleRequest with
                rw := rw2 } exampleRequest).soxStarts = sourceOnly.soxStarts + 2) :=
  ⟨by decide, by decide, rfl,
    failed_transform_not_cached failingSoxExternals exampleHandler sourceOnly exampleRequest
      (.sys (ascii "exit status 2")) sourceOnly.fs (by decide) (by decide) rfl (by decide)⟩

theorem WriteFile_ok (fs : FS) (name data : GoString) (h : fs.writeErr name = none) :
    WriteFile fs name data
      = ({ fs with node := fun p => if p = name then .file data else fs.node p }, none) := by
  simp [WriteFile, h]

/-- C9 (as stated, refuted): the metadata request misses the cache and the
extraction succeeds, but the cache directory cannot be written: `sendJSON`
answers with the write error and status 504, not with the serialization, and
no cache file exists afterwards. -/
theorem unwritable_cache_not_persisted :
    readOnlyCache.fs.node exampleJson = .absent ∧
      getUnidenRiffInfo readOnlyCache.fs exampleWav
        = .returned ([(ascii "IART", ascii "Test Artist"), (ascii "INAM", ascii "Test Title")],
            none) ∧
      exampleHandler.sendJSON exampleExternals readOnlyCache exampleRequest
        = .returned (ServeError (.sys (ascii "permission denied"))
            { readOnlyCache with parses := 1 }) ∧
      (ServeError (.sys (ascii "permission denied")) { readOnlyCache with parses := 1 }).rw
        = ⟨some 504, ascii "permission denied\n"⟩ ∧
      (ServeError (.sys (ascii "permission denied"))
        { readOnlyCache with parses := 1 }).fs.node exampleJson = .absent :=
  ⟨by decide, by decide, rfl, by decide, by decide⟩

/-- C9 (amended): when a metadata request misses the cache, the extraction
succeeds with map `M`, the serialization of `M` succeeds with `jsonData` and
the write of the cache file succeeds, `sendJSON` stores exactly `jsonData` at
the request's cache file, touches no other file, and answers with exactly those
bytes; the same request on the resulting file system is answered with the same
bytes, and `getUnidenRiffInfo` is not invoked again: it ran once over the two
requests. -/
theorem sendJSON_miss_then_hit (x : Externals) (f : Handler) (s : State) (r : Request)
    (M : InfoMap) (jsonData : GoString)
    (hmiss : s.fs.node (f.gi x.sum r (ascii "json")).2 = .absent)
    (hinfo : getUnidenRiffInfo s.fs (f.gi x.sum r (ascii "json")).1 = .returned (M, none))
    (hjson : x.Marshal M = .ok jsonData)
    (hwrite : s.fs.writeErr (f.gi x.sum r (ascii "json")).2 = none) :
    ∃ s1, f.sendJSON x s r = .returned s1 ∧
      s1.fs.node (f.gi x.sum r (ascii "json")).2 = .file jsonData ∧
      (∀ p, p ≠ (f.gi x.sum r (ascii "json")).2 → s1.fs.node p = s.fs.node p) ∧
      s1.rw.body = s.rw.body ++ jsonData ∧
      (s.rw.status = none → s1.rw.code = 200) ∧
      s1.parses = s.parses + 1 ∧
      ∀ rw2 : ResponseWriter,
        ∃ s2, f.sendJSON x { s1 with rw := rw2 } r = .returned s2 ∧
          s2.rw.body = rw2.body ++ jsonData ∧
          (rw2.status = none → s2.rw.code = 200) ∧
          s2.parses = s.parses + 1 ∧ s2.fs = s1.fs := by
  have hnode : ∀ (t : State),
      t.fs = { s.fs with node := fun p =>
        if p = (f.gi x.sum r (ascii "json")).2 then .file jsonData else s.fs.node p } →
      t.fs.node (f.gi x.sum r (ascii "json")).2 = .file jsonData := by
    intro t ht
    rw [ht]
    simp
  refine ⟨{ s with
      fs := { s.fs with node := fun p =>
        if p = (f.gi x.sum r (ascii "json")).2 then .file jsonData else s.fs.node p },
      parses := s.parses + 1,
      rw := ioCopy s.rw (some jsonData) }, ?_, ?_, ?_, ioCopy_body _ _, ioCopy_code _ _, rfl, ?_⟩
  · have hw := WriteFile_ok s.fs (f.gi x.sum r (ascii "json")).2 jsonData hwrite
    simp only [Handler.sendJSON, ServeCached_absent _ s hmiss, hinfo, hjson, hw]
    rw [ServeCached_file _ _ jsonData (hnode _ rfl)]
  · exact hnode _ rfl
  · intro p hp
    simp [hp]
  · intro rw2
    refine ⟨{ s with
        fs := { s.fs with node := fun p =>
          if p = (f.gi x.sum r (ascii "json")).2 then .file jsonData else s.fs.node p },
        parses := s.parses + 1,
        rw := ioCopy rw2 (some jsonData) },
      ?_, ioCopy_body rw2 jsonData, ioCopy_code rw2 jsonData, rfl, rfl⟩
    simp only [Handler.sendJSON]
    rw [ServeCached_file _ _ jsonData (hnode _ rfl)]


theorem sendJSON_miss_then_hit_witness :
    sourceOnly.fs.node exampleJson = .absent ∧
      getUnidenRiffInfo sourceOnly.fs exampleWav
        = .returned ([(ascii "IART", ascii "Test Artist"), (ascii "INAM", ascii "Test Title")],
            none) ∧
      exampleExternals.Marshal
          [(ascii "IART", ascii "Test Artist"), (ascii "INAM", ascii "Test Title")]
        = .ok (ascii "\x7b\"IART\":\"Test Artist\",\"INAM\":\"Test Title\"\x7d") ∧
      sourceOnly.fs.writeErr exampleJson = none ∧
      ∃ s1, exampleHandler.sendJSON exampleExternals sourceOnly exampleRequest = .returned s1 ∧
        s1.fs.node (exampleHandler.gi exampleExternals.sum exampleRequest (ascii "json")).2
          = .file (ascii "\x7b\"IART\":\"Test Artist\",\"INAM\":\"Test Title\"\x7d") ∧
        (∀ p, p ≠ (exampleHandler.gi exampleExternals.sum exampleRequest (ascii "json")).2 →
          s1.fs.node p = sourceOnly.fs.node p) ∧
        s1.rw.body
          = sourceOnly.rw.body ++ ascii "\x7b\"IART\":\"Test Artist\",\"INAM\":\"Test Title\"\x7d" ∧
        (sourceOnly.rw.status = none → s1.rw.code = 200) ∧
        s1.parses = sourceOnly.parses + 1 ∧
        ∀ rw2 : ResponseWriter,
          ∃ s2, exampleHandler.sendJSON exampleExternals { s1 with rw := rw2 } exampleRequest
              = .returned s2 ∧
            s2.rw.body
              = rw2.body ++ ascii "\x7b\"IART\":\"Test Artist\",\"INAM\":\"Test Title\"\x7d" ∧
            (rw2.status = none → s2.rw.code = 200) ∧
            s2.parses = sourceOnly.parses + 1 ∧ s2.fs = s1.fs :=
  ⟨by decide, by decide, rfl, by decide,
    sendJSON_miss_then_hit exampleExternals exampleHandler sourceOnly exampleRequest
      [(ascii "IART", ascii "Test Artist"), (ascii "INAM", ascii "Test Title")]
      (ascii "\x7b\"IART\":\"Test Artist\",\"INAM\":\"Test Title\"\x7d")
      (by decide) (by decide) rfl (by decide)⟩

theorem InfoMap.get_isSome (m : InfoMap) (k : GoString) :
    (m.get k).isSome ↔ k ∈ m.map Prod.fst := by
  induction m with
  | nil => simp [InfoMap.get]
  | cons e m ih =>
    obtain ⟨k0, v0⟩ := e
    by_cases h : k0 = k
    · simp [InfoMap.get, h]
    · have h' : ¬ k = k0 := fun e => h e.symm
      simp [InfoMap.get, h, h', ih]

theorem InfoMap.mem_keys_set (m : InfoMap) (k v k' : GoString) :
    k' ∈ (m.set k v).map Prod.fst ↔ k' = k ∨ k' ∈ m.map Prod.fst := by
  rw [← InfoMap.get_isSome, InfoMap.get_set, ← InfoMap.get_isSome]
  by_cases h : k = k'
  · simp [h]
  · have h' : ¬ k' = k := fun e => h e.symm
    simp [h, h']

theorem InfoMap.nodup_set (m : InfoMap) (k v : GoString) (h : (m.map Prod.fst).Nodup) :
    ((m.set k v).map Prod.fst).Nodup := by
  induction m with
  | nil => simp [InfoMap.set]
  | cons e m ih =>
    obtain ⟨k0, v0⟩ := e
    simp only [List.map_cons, List.nodup_cons] at h
    by_cases h0 : k0 = k
    · subst h0
      simpa [InfoMap.set] using h
    · simp only [InfoMap.set, h0, if_false, List.map_cons, List.nodup_cons]
      refine ⟨?_, ih h.2⟩
      rw [InfoMap.mem_keys_set]
      rintro (h1 | h1)
      · exact h0 h1
      · exact h.1 h1

theorem nodup_collect :
    ∀ (ms : List Member) (acc : InfoMap),
      (acc.map Prod.fst).Nodup → ((collect acc ms).map Prod.fst).Nodup := by
  intro ms
  induction ms with
  | nil => intro acc h; exact h
  | cons m ms ih =>
    intro acc h
    exact ih _ (InfoMap.nodup_set acc _ _ h)

/-- C6: for a RIFF file whose first top-level chunk is a `LIST` chunk with the
members `ms`, whatever follows that chunk, `getUnidenRiffInfo` returns without
error a map whose keys are exactly the member tags, each once, and which maps
each tag to the payload of the last member with that tag without its trailing
NUL bytes: the payload is the stored value followed by NUL bytes only, and the
stored value does not end in a NUL byte. -/
theorem getUnidenRiffInfo_info_list (fs : FS) (file : GoString) (riffLen : Nat)
    (formType listType : FourCC) (ms : List Member) (rest : List Byte)
    (hfile : fs.node file = .file (riffFile riffLen formType listType ms rest))
    (hlen : 12 + (listPayload listType ms).length ≤ riffLen) (h32 : riffLen < 2 ^ 32) :
    ∃ M : InfoMap, getUnidenRiffInfo fs file = .returned (M, none) ∧
      (∀ k, k ∈ M.map Prod.fst ↔ k ∈ ms.map (fun m => m.tag.bytes)) ∧
      (M.map Prod.fst).Nodup ∧
      (∀ k, M.get k = (lastPayload ms k).map (fun p => trimRight p 0)) ∧
      (∀ p : List Byte, ∃ n, p = trimRight p 0 ++ List.replicate n 0 ∧
        (trimRight p 0).getLast? ≠ some 0) := by
  have hget : ∀ k, (collect [] ms).get k = (lastPayload ms k).map (fun p => trimRight p 0) := by
    intro k
    rw [InfoMap.get_collect]
    simp [InfoMap.get]
  refine ⟨collect [] ms,
    getUnidenRiffInfo_riffFile fs file riffLen formType listType ms rest hfile hlen h32,
    ?_, nodup_collect ms [] (by simp), hget, trimRight_spec 0⟩
  intro k
  rw [← InfoMap.get_isSome, hget, ← lastPayload_isSome]
  simp

theorem getUnidenRiffInfo_info_list_witness :
    sourceOnly.fs.node exampleWav
        = .file (riffFile 64 (fourCC "WAVE") (fourCC "INFO") exampleMembers
            (ascii "data\x00\x00\x00\x00")) ∧
      12 + (listPayload (fourCC "INFO") exampleMembers).length ≤ 64 ∧
      getUnidenRiffInfo sourceOnly.fs exampleWav
        = .returned ([(ascii "IART", ascii "Test Artist"), (ascii "INAM", ascii "Test Title")],
            none) ∧
      ∃ M : InfoMap, getUnidenRiffInfo sourceOnly.fs exampleWav = .returned (M, none) ∧
        (∀ k, k ∈ M.map Prod.fst ↔ k ∈ exampleMembers.map (fun m => m.tag.bytes)) ∧
        (M.map Prod.fst).Nodup ∧
        (∀ k, M.get k = (lastPayload exampleMembers k).map (fun p => trimRight p 0)) ∧
        (∀ p : List Byte, ∃ n, p = trimRight p 0 ++ List.replicate n 0 ∧
          (trimRight p 0).getLast? ≠ some 0) :=
  ⟨by decide, by decide, by decide,
    getUnidenRiffInfo_info_list sourceOnly.fs exampleWav 64 (fourCC "WAVE") (fourCC "INFO")
      exampleMembers (ascii "data\x00\x00\x00\x00") (by decide) (by decide) (by decide)⟩


theorem readFull_ok_length (r : List Byte) (n : Nat) (buf r' : List Byte)
    (h : readFull r n = .ok (buf, r')) : r'.length + n = r.length := by
  unfold readFull at h
  split at h
  · simp only [Except.ok.injEq, Prod.mk.injEq] at h
    rw [← h.2, List.length_drop]
    omega
  · split at h <;> simp at h

theorem Reader.nextHeader_ok_length (z z' : Reader) (x : FourCC × Nat)
    (h : z.nextHeader = (.ok x, z')) : z'.r.length + 8 = z.r.length := by
  unfold Reader.nextHeader at h
  simp only [Reader.fail] at h
  split at h
  · simp at h
  · split at h
    · simp at h
    · split at h
      · simp at h
      · rename_i buf r hhdr
        have h8 := readFull_ok_length _ _ _ _ hhdr
        split at h
        · simp at h
        · simp only [Prod.mk.injEq] at h
          rw [← h.2]
          exact h8

theorem Reader.skipPadding_ok_length (z z' : Reader) (x : FourCC × Nat)
    (h : z.skipPadding = (.ok x, z')) : z'.r.length + 8 ≤ z.r.length := by
  unfold Reader.skipPadding at h
  simp only [Reader.fail] at h
  split at h
  · split at h
    · simp at h
    · split at h
      · simp at h
      · rename_i buf r hpad
        have h1 := readFull_ok_length _ _ _ _ hpad
        have h8 := Reader.nextHeader_ok_length _ _ _ h
        simp only at h1 h8
        omega
  · exact Nat.le_of_eq (Reader.nextHeader_ok_length _ _ _ h)

theorem Reader.Next_ok_length (z z' : Reader) (x : FourCC × Nat)
    (h : z.Next = (.ok x, z')) : z'.r.length + 8 ≤ z.r.length := by
  unfold Reader.Next at h
  split at h
  · simp at h
  · split at h
    · simp only [Reader.fail] at h
      split at h
      · simp at h
      · have := Reader.skipPadding_ok_length _ _ _ h
        simp only [List.length_drop] at this
        omega
    · exact Reader.skipPadding_ok_length _ _ _ h

theorem Reader.ReadAll_length (z : Reader) : z.ReadAll.2.r.length ≤ z.r.length := by
  unfold Reader.ReadAll
  split
  · exact Nat.le_refl _
  · simp only [List.length_drop]
    omega

/-- The member loop ends within its budget: every iteration takes at least the
eight bytes of a chunk header from the stream. -/
theorem infoLoop_finishes :
    ∀ (fuel : Nat) (z : Reader) (acc : InfoMap),
      z.r.length < fuel → infoLoop fuel z acc ≠ .unfinished := by
  intro fuel
  induction fuel with
  | zero => intro z acc h; omega
  | succ fuel ih =>
    intro z acc h
    unfold infoLoop
    split
    · split <;> simp
    · rename_i chunkID len z1 hnext
      have h1 := Reader.Next_ok_length _ _ _ hnext
      split
      · simp
      · rename_i b z2 hread
        have h2 := Reader.ReadAll_length z1
        rw [hread] at h2
        simp only at h2
        exact ih z2 _ (by omega)

/-- A call of `getUnidenRiffInfo` ends: it returns or the process exits. -/
theorem getUnidenRiffInfo_finishes (fs : FS) (file : GoString) :
    getUnidenRiffInfo fs file ≠ .unfinished := by
  unfold getUnidenRiffInfo
  split
  · simp
  · simp
  · split
    · simp
    · split
      · simp
      · split
        · split
          · simp
          · exact infoLoop_finishes _ _ _ (Nat.lt_succ_self _)
        · simp

/-- A call of `sendJSON` ends: it returns or the process exits. -/
theorem sendJSON_finishes (x : Externals) (f : Handler) (s : State) (r : Request) :
    f.sendJSON x s r ≠ .unfinished := by
  unfold Handler.sendJSON
  simp only
  split
  · simp
  · split
    · simp
    · rename_i h
      exact absurd h (getUnidenRiffInfo_finishes _ _)
    · simp
    · split
      · simp
      · split <;> simp

end BCDx36HP
